import Mathlib

/-!
Shallow embedding of the Triangulum message-dispatch runtime
(`src/index.ts`, `src/registry.ts`).

Modelling conventions:
* A JavaScript prototype object is modelled by `ClassDesc`: its identity
  (the class name) together with the value of its `channel` property
  (set by the `MakeSendable` decorator; `none` models `undefined`).
* A message instance (`Sendable` in the source) is modelled by `Sendable`:
  its own `channel` property (`none` when the property was never assigned,
  as for a freshly constructed instance), its prototype, and an integer
  payload standing for the subclass data.  Reading `data.channel` follows
  the JS property chain: the own property if present, else the prototype's.
* Functions that can throw are modelled with `Option` results
  (`none` = the call threw); callbacks that can throw are modelled by a
  `Bool`-valued `run` (`false` = the callback threw).
* The manager state carries instrumentation that records the observable
  events: the list of `transmit` arguments and the list of arguments
  passed to `encode`.
-/

namespace Triangulum

/-- A JS prototype object: its identity (class name) and the value of its
`channel` property (`none` = `undefined`, i.e. the class was never passed
to `MakeSendable`). -/
structure ClassDesc where
  name : String
  channel : Option String
  deriving DecidableEq

/-- A message instance (an object extending `Sendable`): its own `channel`
property (`none` when never assigned), its prototype object, and a payload
standing for the subclass fields. -/
structure Sendable where
  ownChannel : Option String
  proto : ClassDesc
  payload : Int
  deriving DecidableEq

/-- Reading `data.channel` on a `Sendable`: the own property when present,
otherwise the prototype's `channel` property (JS prototype-chain lookup). -/
def channelRead (m : Sendable) : Option String :=
  match m.ownChannel with
  | some c => some c
  | none => m.proto.channel

/-- Constructing an instance of a class: the `channel` field declared on
`Sendable` is never assigned by a constructor, so the instance has no own
`channel` property and reads fall through to the prototype. -/
def mkInstance (cls : ClassDesc) (payload : Int) : Sendable :=
  { ownChannel := none, proto := cls, payload := payload }

/-- The send-path stamping `data.channel = Object.getPrototypeOf(data).channel`
(line 276 of `src/index.ts`). -/
def stampChannel (m : Sendable) : Sendable :=
  { m with ownChannel := m.proto.channel }

/-- One entry of `Registry.entries`: the registered class (type descriptor,
whose `prototype` is used for retagging), the type-checking strategy, and
the custom data tuple (`src/registry.ts`). -/
structure RegEntry (γ : Type) where
  classDesc : ClassDesc
  strat : Sendable → Bool
  custom : γ

/-- `Map.get` on an association list (insertion-ordered, like a JS `Map`).
Keys are `Option String` because `Registry.register` keys the entry by
`classToRegister.channel()`, which is `prototype.channel` and may be
`undefined` when the decorator never ran. -/
def lookupEntry {γ : Type} (k : Option String) : List (Option String × RegEntry γ) → Option (RegEntry γ)
  | [] => none
  | (k2, v) :: rest => if k2 = k then some v else lookupEntry k rest

/-- `Map.set` on an association list: overwrite in place when the key is
present, append otherwise (JS `Map` semantics). -/
def setEntry {γ : Type} (k : Option String) (v : RegEntry γ) : List (Option String × RegEntry γ) → List (Option String × RegEntry γ)
  | [] => [(k, v)]
  | (k2, v2) :: rest => if k2 = k then (k, v) :: rest else (k2, v2) :: setEntry k v rest

/-- The `Registry` class (`src/registry.ts`): a map from channel to entry. -/
structure Registry (γ : Type) where
  entries : List (Option String × RegEntry γ)

/-- `Registry.register` (`src/registry.ts`, lines 17-25): keys the entry by
`classToRegister.channel()`, i.e. the class's `prototype.channel`. -/
def Registry.register {γ : Type} (r : Registry γ) (cls : ClassDesc) (strat : Sendable → Bool) (custom : γ) : Registry γ :=
  { entries := setEntry cls.channel ⟨cls, strat, custom⟩ r.entries }

/-- The `MakeSendable` decorator (`src/index.ts`, lines 466-480): sets
`constructor.prototype.channel = channel`, then registers the class.
Returns the modified class together with the updated registry. -/
def MakeSendable {γ : Type} (r : Registry γ) (channel : String) (strat : Sendable → Bool) (custom : γ) (cls : ClassDesc) : ClassDesc × Registry γ :=
  let cls2 := { cls with channel := some channel }
  (cls2, Registry.register r cls2 strat custom)

/-- A registered listener callback.  `run m = false` models the callback
throwing when invoked with `m`; `true` models a normal return. -/
structure Listener where
  id : Nat
  run : Sendable → Bool

/-- An entry of the `awaiters` array (`src/index.ts`, lines 19-23).
`predicate m = none` models the predicate throwing on `m`. -/
structure Awaiter where
  id : Nat
  channel : String
  predicate : Sendable → Option Bool

/-- The observable outcome of one `notifyListeners` / `onData` call:
which awaiter was resolved (by id), which listener callbacks were invoked
(by id, in invocation order), whether an exception propagated to the
caller, and the message value handed to the dispatch engine (`none` when
the message was dropped before dispatch). -/
structure NotifyResult where
  resolved : Option Nat
  invoked : List Nat
  threw : Bool
  delivered : Option Sendable
  deriving DecidableEq

/-- Result of scanning the `awaiters` array (the `for` loop of
`notifyListeners`, lines 90-99): the predicate threw, or the first match
was found (returning its id and the array after the `splice`), or no
awaiter matched. -/
inductive ScanResult where
  | threw : ScanResult
  | matched : Nat → List Awaiter → ScanResult
  | noMatch : ScanResult

/-- The scan of `awaiters` in registration order: for each awaiter, test
`awaiter.channel === data.channel && awaiter.predicate(data)` with JS
short-circuiting (the predicate runs only when the channels are equal);
on the first `true`, remove that awaiter and stop. -/
def scanAwaiters (ch : Option String) (m : Sendable) : List Awaiter → ScanResult
  | [] => ScanResult.noMatch
  | a :: rest =>
    if some a.channel = ch then
      match a.predicate m with
      | none => ScanResult.threw
      | some true => ScanResult.matched a.id rest
      | some false =>
        match scanAwaiters ch m rest with
        | ScanResult.matched i r => ScanResult.matched i (a :: r)
        | other => other
    else
      match scanAwaiters ch m rest with
      | ScanResult.matched i r => ScanResult.matched i (a :: r)
      | other => other

/-- `set.forEach(callback => callback(data))`: invoke each callback in
order; a throwing callback stops the iteration and the exception
propagates.  Returns the invoked ids and whether an exception escaped. -/
def runCallbacks (m : Sendable) : List Listener → List Nat × Bool
  | [] => ([], false)
  | l :: rest =>
    if l.run m then
      let r := runCallbacks m rest
      (l.id :: r.1, r.2)
    else ([l.id], true)

/-- The full manager state (`ListenerManagerImplementations` plus
`AbstractListenerManager` fields), with the instrumentation lists
`transmitted` (arguments of `transmit` calls, in order) and
`encodeCalls` (arguments of `encode` calls, in order). -/
structure ManagerState (ι γ : Type) where
  registry : Registry γ
  listeners : List (String × List Listener)
  awaiters : List Awaiter
  queue : List Sendable
  isReady : Bool
  transmitted : List ι
  encodeCalls : List Sendable

/-- `this.listeners.get(data.channel!)`: the callbacks registered under
the message's channel; a channel of `undefined` finds no set. -/
def listenersFor {ι γ : Type} (st : ManagerState ι γ) (ch : Option String) : List Listener :=
  match ch with
  | none => []
  | some c =>
    match st.listeners.lookup c with
    | some ls => ls
    | none => []

/-- `notifyListeners` (`src/index.ts`, lines 89-102): resolve the first
matching awaiter and remove it (no listener runs for that message); when
no awaiter matches, invoke every callback registered under the message's
channel. -/
def notifyListeners {ι γ : Type} (st : ManagerState ι γ) (m : Sendable) : ManagerState ι γ × NotifyResult :=
  match scanAwaiters (channelRead m) m st.awaiters with
  | ScanResult.threw => (st, ⟨none, [], true, some m⟩)
  | ScanResult.matched i rest => ({ st with awaiters := rest }, ⟨some i, [], false, some m⟩)
  | ScanResult.noMatch =>
    let r := runCallbacks m (listenersFor st (channelRead m))
    (st, ⟨none, r.1, r.2, some m⟩)

/-- The channel candidate returned by `decode`: a string, or any value
whose `typeof` is not `"string"`. -/
inductive Cand where
  | str : String → Cand
  | nonString : Cand

/-- How `finalize` returns: `sameRef` models returning its first argument
(the very intermediate object, as the JSON manager does), `newVal v`
models returning a different object `v`.  The distinction matters because
`onData` mutates the intermediate's prototype after `finalize` returns. -/
inductive FRes where
  | sameRef : FRes
  | newVal : Sendable → FRes

/-- The value bound to `decoded` after `finalize` returns and after the
subsequent `Object.setPrototypeOf(intermediate, classType.prototype)`
(line 255): when `finalize` returned the intermediate itself, the mutation
is visible on it; when it returned a fresh object, the mutation lands on
the (now unused) intermediate and the fresh object is unchanged. -/
def passedValue (inter : Sendable) (cls : ClassDesc) : FRes → Sendable
  | FRes.sameRef => { inter with proto := cls }
  | FRes.newVal v => v

/-- The `NotifyResult` of a dropped message: nothing resolved, nothing
invoked, no exception, nothing delivered. -/
def droppedResult : NotifyResult := ⟨none, [], false, none⟩

/-- `onData` (`src/index.ts`, lines 211-258): decode, check the channel is
a string, look it up in the registry, `finalize`, retag the intermediate,
and hand the finalized value to `notifyListeners`.  Each failure of the
first four steps drops the message (warn only). -/
def onData {ι γ : Type} (decode : ι → Option (Cand × Sendable))
    (finalize : Sendable → (Sendable → Bool) → γ → Option FRes)
    (st : ManagerState ι γ) (raw : ι) : ManagerState ι γ × NotifyResult :=
  match decode raw with
  | none => (st, droppedResult)
  | some (Cand.nonString, _) => (st, droppedResult)
  | some (Cand.str c, inter) =>
    match lookupEntry (some c) st.registry.entries with
    | none => (st, droppedResult)
    | some e =>
      match finalize inter e.strat e.custom with
      | none => (st, droppedResult)
      | some fres => notifyListeners st (passedValue inter e.classDesc fres)

/-- The error message thrown by `send` for an unregistered class. -/
def sendErrMsg : String := "class not registered in the registry"

/-- The error message thrown by `send` when `encode` throws. -/
def encodeErrMsg : String := "the data being sent could not be encoded"

/-- `send` (`src/index.ts`, lines 264-287): throw when the channel read
from the message is not a registry key; queue when not ready; otherwise
stamp the channel from the prototype, encode (recording the call and
rethrowing an encode failure), and transmit.  The second component is the
exception (`none` = returned normally). -/
def send {ι γ : Type} (enc : Sendable → Option ι) (st : ManagerState ι γ) (m : Sendable) : ManagerState ι γ × Option String :=
  if (lookupEntry (channelRead m) st.registry.entries).isSome = false then
    (st, some sendErrMsg)
  else if st.isReady = false then
    ({ st with queue := st.queue ++ [m] }, none)
  else
    let m2 := stampChannel m
    let st2 := { st with encodeCalls := st.encodeCalls ++ [m2] }
    match enc m2 with
    | none => (st2, some encodeErrMsg)
    | some io => ({ st2 with transmitted := st2.transmitted ++ [io] }, none)

/-- A sequence of `send` calls; a thrown exception aborts the sequence
(the caller would see it). -/
def sendAll {ι γ : Type} (enc : Sendable → Option ι) : List Sendable → ManagerState ι γ → ManagerState ι γ × Option String
  | [], st => (st, none)
  | m :: ms, st =>
    match send enc st m with
    | (st2, none) => sendAll enc ms st2
    | (st2, some e) => (st2, some e)

/-- `this.queue.forEach(v => this.send(v))`: re-send each queued message
in order; a thrown exception aborts the iteration and propagates. -/
def drainQueue {ι γ : Type} (enc : Sendable → Option ι) : List Sendable → ManagerState ι γ → ManagerState ι γ × Option String
  | [], st => (st, none)
  | m :: ms, st =>
    match send enc st m with
    | (st2, none) => drainQueue enc ms st2
    | (st2, some e) => (st2, some e)

/-- `ready` (`src/index.ts`, lines 297-303): set `isReady`, drain the
queue through `send`, then clear the queue — the clearing is skipped when
the drain throws. -/
def ready {ι γ : Type} (enc : Sendable → Option ι) (st : ManagerState ι γ) : ManagerState ι γ × Option String :=
  let st1 := { st with isReady := true }
  match drainQueue enc st1.queue st1 with
  | (st2, none) => ({ st2 with queue := [] }, none)
  | (st2, some e) => (st2, some e)

/-- The argument `send` passes to `encode` for a message `m`, and hence
the encoded form of `m`. -/
def encodedForm {ι : Type} (enc : Sendable → Option ι) (m : Sendable) : Option ι :=
  enc (stampChannel m)

/-! Concrete fixtures used to evaluate the definitions on closed inputs. -/

/-- A class registered (below) under channel `"pong"`. -/
def pongCls : ClassDesc := ⟨"Pong", some "pong"⟩

/-- A class registered (below) under channel `"ping"`. -/
def pingCls : ClassDesc := ⟨"Ping", some "ping"⟩

/-- `Object.prototype`: the prototype of a plain parsed object; it carries
no `channel` property. -/
def plainCls : ClassDesc := ⟨"Object", none⟩

/-- A `"pong"` registry entry whose validator accepts everything. -/
def entryPongOk : RegEntry Unit := ⟨pongCls, fun _ => true, ()⟩

/-- A `"pong"` registry entry whose validator rejects everything, so the
`finalize` step throws. -/
def entryPongReject : RegEntry Unit := ⟨pongCls, fun _ => false, ()⟩

/-- A `"ping"` registry entry whose validator accepts everything. -/
def entryPing : RegEntry Unit := ⟨pingCls, fun _ => true, ()⟩

/-- An awaiter on channel `"pong"` whose predicate accepts payload 5. -/
def awaiterA : Awaiter := ⟨1, "pong", fun x => some (decide (x.payload = 5))⟩

/-- An awaiter on channel `"pong"` whose predicate throws. -/
def awaiterThrow : Awaiter := ⟨3, "pong", fun _ => none⟩

/-- A listener callback that returns normally. -/
def listenerL : Listener := ⟨2, fun _ => true⟩

/-- A listener callback that throws. -/
def listenerThrow : Listener := ⟨4, fun _ => false⟩

/-- A received `"pong"` message with payload 5 (still a plain object). -/
def msg5 : Sendable := ⟨some "pong", plainCls, 5⟩

/-- A received `"pong"` message with payload 7 (still a plain object). -/
def msg7 : Sendable := ⟨some "pong", plainCls, 7⟩

/-- The decoded intermediate of the fixture raw input: a plain object
tagged `"pong"` with payload 5. -/
def msgPlain : Sendable := ⟨some "pong", plainCls, 5⟩

/-- `msgPlain` after retagging to the registered `Pong` prototype. -/
def msgRetagged : Sendable := ⟨some "pong", pongCls, 5⟩

/-- A dispatch-engine state: listener `listenerL` on `"pong"`, awaiter
`awaiterA` pending. -/
def dispatchSt : ManagerState Nat Unit :=
  ⟨⟨[]⟩, [("pong", [listenerL])], [awaiterA], [], true, [], []⟩

/-- `dispatchSt` after the awaiter has been consumed. -/
def dispatchSt2 : ManagerState Nat Unit := { dispatchSt with awaiters := [] }

/-- A fixture decoder over `Nat` raw inputs: 0 throws, 1 decodes to a
non-string channel, 2 decodes to channel `"unregistered"`, 3 decodes to
channel `"pong"`. -/
def wDecode : Nat → Option (Cand × Sendable)
  | 1 => some (Cand.nonString, msgPlain)
  | 2 => some (Cand.str "unregistered", msgPlain)
  | 3 => some (Cand.str "pong", msgPlain)
  | _ => none

/-- A fixture `finalize` in the style of `JSONListenerManager.finalize`:
run the type checker, throw when it fails, and return the same value. -/
def wFinalize : Sendable → (Sendable → Bool) → Unit → Option FRes :=
  fun i s _ => if s i then some FRes.sameRef else none

/-- A fixture `finalize` that follows the documented contract ("Prototype
changes are handled automatically") but returns a fresh object — the
spread copy of the intermediate, whose prototype is `Object.prototype`. -/
def finalizeCopy : Sendable → (Sendable → Bool) → Unit → Option FRes :=
  fun i s _ => if s i then some (FRes.newVal ⟨i.ownChannel, plainCls, i.payload⟩) else none

/-- A manager whose registry has a rejecting `"pong"` entry. -/
def stC3 : ManagerState Nat Unit :=
  ⟨⟨[(some "pong", entryPongReject)]⟩, [], [], [], true, [], []⟩

/-- A manager with a pending `"pong"` awaiter whose predicate throws. -/
def stC9a : ManagerState Nat Unit :=
  ⟨⟨[(some "pong", entryPongOk)]⟩, [], [awaiterThrow], [], true, [], []⟩

/-- A manager with a `"pong"` listener callback that throws. -/
def stC9b : ManagerState Nat Unit :=
  ⟨⟨[(some "pong", entryPongOk)]⟩, [("pong", [listenerThrow])], [], [], true, [], []⟩

/-- A manager with an accepting `"pong"` entry and no subscribers. -/
def stC5 : ManagerState Nat Unit :=
  ⟨⟨[(some "pong", entryPongOk)]⟩, [], [], [], true, [], []⟩

/-- A fixture encoder that always succeeds, encoding to the payload. -/
def encNat : Sendable → Option Nat := fun m => some m.payload.toNat

/-- A fixture encoder that throws exactly on payload 13. -/
def encPartial : Sendable → Option Nat :=
  fun m => if m.payload = 13 then none else some m.payload.toNat

/-- A freshly constructed `Ping` instance. -/
def pingInst : Sendable := mkInstance pingCls 1

/-- A freshly constructed `Pong` instance. -/
def pongInst : Sendable := mkInstance pongCls 2

/-- A queued message `encPartial` can encode. -/
def okMsg : Sendable := mkInstance pongCls 1

/-- A queued message `encPartial` throws on. -/
def badMsg : Sendable := mkInstance pongCls 13

/-- A message whose channel reads `"nope"`, absent from every fixture
registry. -/
def unregMsg : Sendable := ⟨some "nope", plainCls, 0⟩

/-- A fresh not-ready manager knowing `"pong"` and `"ping"`. -/
def stFresh : ManagerState Nat Unit :=
  ⟨⟨[(some "pong", entryPongOk), (some "ping", entryPing)]⟩, [], [], [], false, [], []⟩

/-- A ready manager knowing `"pong"` and `"ping"`. -/
def stC6 : ManagerState Nat Unit :=
  ⟨⟨[(some "pong", entryPongOk), (some "ping", entryPing)]⟩, [], [], [], true, [], []⟩

/-- A `Pong` instance whose own `channel` property was set to `"ping"`
before sending (a stale caller-supplied tag that is itself registered). -/
def msgMistagged : Sendable := ⟨some "ping", pongCls, 9⟩

/-- A not-ready manager with `okMsg` and `badMsg` queued. -/
def stC7 : ManagerState Nat Unit :=
  ⟨⟨[(some "pong", entryPongOk)]⟩, [], [], [okMsg, badMsg], false, [], []⟩

/-- `stC7` after a `ready()` whose drain aborted on `badMsg`: the manager
is Ready but its queue was never cleared. -/
def stC7ready : ManagerState Nat Unit := (ready encPartial stC7).1

/-- A ready manager with an empty queue. -/
def stEmptyReady : ManagerState Nat Unit :=
  ⟨⟨[(some "pong", entryPongOk)]⟩, [], [], [], true, [], []⟩

/-- `stC3` in the NotReady state. -/
def stC3nr : ManagerState Nat Unit := { stC3 with isReady := false }

/-! Lemmas about the awaiter scan and the callback iteration. -/

theorem scanAwaiters_append (ch : Option String) (m : Sendable) (pre rest : List Awaiter)
    (h : ∀ b ∈ pre, some b.channel = ch → b.predicate m = some false) :
    scanAwaiters ch m (pre ++ rest) =
      match scanAwaiters ch m rest with
      | ScanResult.matched i r => ScanResult.matched i (pre ++ r)
      | other => other := by
  induction pre with
  | nil =>
    simp only [List.nil_append]
    cases scanAwaiters ch m rest <;> rfl
  | cons b pre2 ih =>
    have hrec := ih (fun x hx hc => h x (List.mem_cons_of_mem b hx) hc)
    have hhead : scanAwaiters ch m ((b :: pre2) ++ rest) =
        match scanAwaiters ch m (pre2 ++ rest) with
        | ScanResult.matched i r => ScanResult.matched i (b :: r)
        | other => other := by
      by_cases hch : some b.channel = ch
      · have hp : b.predicate m = some false := h b (List.mem_cons_self b pre2) hch
        simp [scanAwaiters, hch, hp]
      · simp [scanAwaiters, hch]
    rw [hhead, hrec]
    cases scanAwaiters ch m rest <;> rfl

theorem scanAwaiters_first_match (ch : Option String) (m : Sendable) (pre : List Awaiter)
    (a : Awaiter) (post : List Awaiter)
    (h : ∀ b ∈ pre, some b.channel = ch → b.predicate m = some false)
    (hch : some a.channel = ch) (hp : a.predicate m = some true) :
    scanAwaiters ch m (pre ++ a :: post) = ScanResult.matched a.id (pre ++ post) := by
  rw [scanAwaiters_append ch m pre (a :: post) h]
  simp only [scanAwaiters, hch, if_true, hp]

theorem scanAwaiters_none (ch : Option String) (m : Sendable) (l : List Awaiter)
    (h : ∀ b ∈ l, some b.channel = ch → b.predicate m = some false) :
    scanAwaiters ch m l = ScanResult.noMatch := by
  have := scanAwaiters_append ch m l [] h
  simpa [scanAwaiters] using this

theorem scanAwaiters_predicate_throws (ch : Option String) (m : Sendable) (pre : List Awaiter)
    (a : Awaiter) (post : List Awaiter)
    (h : ∀ b ∈ pre, some b.channel = ch → b.predicate m = some false)
    (hch : some a.channel = ch) (hp : a.predicate m = none) :
    scanAwaiters ch m (pre ++ a :: post) = ScanResult.threw := by
  rw [scanAwaiters_append ch m pre (a :: post) h]
  simp only [scanAwaiters, hch, if_true, hp]

theorem runCallbacks_all_ok (m : Sendable) (ls : List Listener)
    (h : ∀ l ∈ ls, l.run m = true) :
    runCallbacks m ls = (ls.map Listener.id, false) := by
  induction ls with
  | nil => rfl
  | cons l rest ih =>
    have hl : l.run m = true := h l (List.mem_cons_self l rest)
    have hrec := ih (fun x hx => h x (List.mem_cons_of_mem l hx))
    simp [runCallbacks, hl, hrec]

theorem runCallbacks_throws (m : Sendable) (ps : List Listener) (l : Listener) (qs : List Listener)
    (h : ∀ p ∈ ps, p.run m = true) (hl : l.run m = false) :
    runCallbacks m (ps ++ l :: qs) = (ps.map Listener.id ++ [l.id], true) := by
  induction ps with
  | nil => simp [runCallbacks, hl]
  | cons p rest ih =>
    have hp : p.run m = true := h p (List.mem_cons_self p rest)
    have hrec := ih (fun x hx => h x (List.mem_cons_of_mem p hx))
    simp [runCallbacks, hp, hrec]

/-- Claim C1: for every message handed to `notifyListeners`, the awaiter
list is scanned in registration order; the first awaiter whose channel
equals the message's channel and whose predicate returns true is resolved
with the message, removed from the list, and no listener callback runs
for that message; if no awaiter matches, every callback registered under
the message's channel is invoked with the message. -/
theorem notify_first_match_or_broadcast {ι γ : Type} (st : ManagerState ι γ) (m : Sendable) :
    (∀ pre a post, st.awaiters = pre ++ a :: post →
      (∀ b ∈ pre, some b.channel = channelRead m → b.predicate m = some false) →
      some a.channel = channelRead m → a.predicate m = some true →
      notifyListeners st m =
        ({ st with awaiters := pre ++ post }, ⟨some a.id, [], false, some m⟩)) ∧
    ((∀ b ∈ st.awaiters, some b.channel = channelRead m → b.predicate m = some false) →
      (∀ l ∈ listenersFor st (channelRead m), l.run m = true) →
      notifyListeners st m =
        (st, ⟨none, (listenersFor st (channelRead m)).map Listener.id, false, some m⟩)) := by
  constructor
  · intro pre a post h1 h2 h3 h4
    unfold notifyListeners
    rw [h1, scanAwaiters_first_match (channelRead m) m pre a post h2 h3 h4]
  · intro h1 h2
    unfold notifyListeners
    rw [scanAwaiters_none (channelRead m) m st.awaiters h1,
      runCallbacks_all_ok m (listenersFor st (channelRead m)) h2]

/-- Witness for claim C1: with listener `listenerL` and awaiter `awaiterA`
both on `"pong"`, a payload-5 message resolves the awaiter and invokes no
listener; once the awaiter is consumed, a payload-7 message invokes the
listener. -/
theorem notify_first_match_or_broadcast_witness :
    notifyListeners dispatchSt msg5 =
      ({ dispatchSt with awaiters := [] }, ⟨some 1, [], false, some msg5⟩) ∧
    notifyListeners dispatchSt2 msg7 =
      (dispatchSt2, ⟨none, [2], false, some msg7⟩) := by
  constructor
  · exact (notify_first_match_or_broadcast dispatchSt msg5).1 [] awaiterA []
      rfl (fun b hb => absurd hb (List.not_mem_nil b)) rfl rfl
  · exact (notify_first_match_or_broadcast dispatchSt2 msg7).2
      (fun b hb => absurd hb (List.not_mem_nil b))
      (fun l hl => by
        have : l = listenerL := List.mem_singleton.mp hl
        rw [this]
        rfl)

/-- Claim C3: each failure in receive steps 1-4 (decode throws, the
channel candidate is not a string, the channel is absent from the
registry, finalize throws — including a false validator) makes `onData`
drop the message: it returns normally, resolves no awaiter, invokes no
listener, and leaves the manager state unchanged. -/
theorem onData_failure_branches_drop {ι γ : Type} (decode : ι → Option (Cand × Sendable))
    (finalize : Sendable → (Sendable → Bool) → γ → Option FRes)
    (st : ManagerState ι γ) (raw : ι) :
    (decode raw = none → onData decode finalize st raw = (st, droppedResult)) ∧
    (∀ inter, decode raw = some (Cand.nonString, inter) →
      onData decode finalize st raw = (st, droppedResult)) ∧
    (∀ c inter, decode raw = some (Cand.str c, inter) →
      lookupEntry (some c) st.registry.entries = none →
      onData decode finalize st raw = (st, droppedResult)) ∧
    (∀ c inter e, decode raw = some (Cand.str c, inter) →
      lookupEntry (some c) st.registry.entries = some e →
      finalize inter e.strat e.custom = none →
      onData decode finalize st raw = (st, droppedResult)) := by
  refine ⟨?_, ?_, ?_, ?_⟩
  · intro h
    simp [onData, h]
  · intro inter h
    simp [onData, h]
  · intro c inter h1 h2
    simp [onData, h1, h2]
  · intro c inter e h1 h2 h3
    simp [onData, h1, h2, h3]

/-- Witness for claim C3: on the fixture manager, a raw input on which the
decoder throws (0), one decoding to a non-string channel (1), one decoding
to the unregistered channel `"unregistered"` (2), and one whose validator
rejects it so finalize throws (3) are all dropped without any state
change, resolution, invocation, or escaping exception. -/
theorem onData_failure_branches_drop_witness :
    onData wDecode wFinalize stC3 0 = (stC3, droppedResult) ∧
    onData wDecode wFinalize stC3 1 = (stC3, droppedResult) ∧
    onData wDecode wFinalize stC3 2 = (stC3, droppedResult) ∧
    onData wDecode wFinalize stC3 3 = (stC3, droppedResult) :=
  ⟨(onData_failure_branches_drop wDecode wFinalize stC3 0).1 rfl,
   (onData_failure_branches_drop wDecode wFinalize stC3 1).2.1 msgPlain rfl,
   (onData_failure_branches_drop wDecode wFinalize stC3 2).2.2.1 "unregistered" msgPlain rfl rfl,
   (onData_failure_branches_drop wDecode wFinalize stC3 3).2.2.2 "pong" msgPlain entryPongReject rfl rfl rfl⟩

/-- Claim C9: when the receive pipeline succeeds up to dispatch, an
exception thrown by an awaiter predicate or by a listener callback during
notification propagates out of `onData`; the warn-and-drop handling covers
only the decode, channel-shape, registry-lookup and finalize steps. -/
theorem onData_notification_exception_propagates {ι γ : Type}
    (decode : ι → Option (Cand × Sendable))
    (finalize : Sendable → (Sendable → Bool) → γ → Option FRes)
    (st : ManagerState ι γ) (raw : ι) (c : String) (inter : Sendable)
    (e : RegEntry γ) (fres : FRes) (m : Sendable)
    (hdec : decode raw = some (Cand.str c, inter))
    (hreg : lookupEntry (some c) st.registry.entries = some e)
    (hfin : finalize inter e.strat e.custom = some fres)
    (hm : m = passedValue inter e.classDesc fres) :
    (∀ pre a post, st.awaiters = pre ++ a :: post →
      (∀ b ∈ pre, some b.channel = channelRead m → b.predicate m = some false) →
      some a.channel = channelRead m → a.predicate m = none →
      (onData decode finalize st raw).2.threw = true) ∧
    ((∀ b ∈ st.awaiters, some b.channel = channelRead m → b.predicate m = some false) →
      (∀ ps l qs, listenersFor st (channelRead m) = ps ++ l :: qs →
        (∀ p ∈ ps, p.run m = true) → l.run m = false →
        (onData decode finalize st raw).2.threw = true)) := by
  have hstep : onData decode finalize st raw = notifyListeners st m := by
    simp [onData, hdec, hreg, hfin, hm]
  constructor
  · intro pre a post h1 h2 h3 h4
    rw [hstep]
    unfold notifyListeners
    rw [h1, scanAwaiters_predicate_throws (channelRead m) m pre a post h2 h3 h4]
  · intro h1 ps l qs h2 h3 h4
    rw [hstep]
    unfold notifyListeners
    rw [scanAwaiters_none (channelRead m) m st.awaiters h1, h2,
      runCallbacks_throws m ps l qs h3 h4]

/-- Witness for claim C9: a validated `"pong"` message whose matching
awaiter predicate throws (state `stC9a`), and one whose listener callback
throws (state `stC9b`), both make `onData` raise. -/
theorem onData_notification_exception_propagates_witness :
    (onData wDecode wFinalize stC9a 3).2.threw = true ∧
    (onData wDecode wFinalize stC9b 3).2.threw = true := by
  constructor
  · exact (onData_notification_exception_propagates wDecode wFinalize stC9a 3 "pong"
      msgPlain entryPongOk FRes.sameRef msgRetagged rfl rfl rfl rfl).1
      [] awaiterThrow [] rfl (fun b hb => absurd hb (List.not_mem_nil b)) rfl rfl
  · exact (onData_notification_exception_propagates wDecode wFinalize stC9b 3 "pong"
      msgPlain entryPongOk FRes.sameRef msgRetagged rfl rfl rfl rfl).2
      (fun b hb => absurd hb (List.not_mem_nil b))
      [] listenerThrow [] rfl (fun p hp => absurd hp (List.not_mem_nil p)) rfl

/-- Claim C5 is violated by the code: `onData` calls
`Object.setPrototypeOf` on `intermediate` but hands `decoded` (the return
value of `finalize`) to `notifyListeners`.  With a `finalize` that follows
its documented contract but returns a fresh object (here: a spread copy of
the intermediate), the value handed to the dispatch engine keeps the plain
`Object` prototype instead of the registered `Pong` descriptor. -/
theorem onData_dispatches_value_without_registered_proto :
    (lookupEntry (some "pong") stC5.registry.entries).map (fun e => e.classDesc) = some pongCls ∧
    ((onData wDecode finalizeCopy stC5 3).2.delivered.map (fun v => v.proto)) = some plainCls ∧
    plainCls ≠ pongCls := by
  refine ⟨rfl, rfl, ?_⟩
  decide

/-- Claim C4: `send` on a message whose channel has no registry entry
throws synchronously and leaves the whole manager state — in particular
the outbound queue and the transmit log — unchanged, in the Ready and the
NotReady state alike. -/
theorem send_unregistered_throws {ι γ : Type} (enc : Sendable → Option ι)
    (st : ManagerState ι γ) (m : Sendable)
    (h : lookupEntry (channelRead m) st.registry.entries = none) :
    send enc st m = (st, some sendErrMsg) := by
  simp [send, h]

/-- Witness for claim C4: sending the unregistered `unregMsg` throws and
changes nothing, both on the ready manager `stC3` and on the not-ready
manager `stC3nr`. -/
theorem send_unregistered_throws_witness :
    send encNat stC3 unregMsg = (stC3, some sendErrMsg) ∧
    send encNat stC3nr unregMsg = (stC3nr, some sendErrMsg) :=
  ⟨send_unregistered_throws encNat stC3 unregMsg rfl,
   send_unregistered_throws encNat stC3nr unregMsg rfl⟩

/-- Claim C6: when a registered message is sent in the Ready state, the
argument handed to `encode` is the message with its `channel` field
stamped from the prototype, so at the moment `encode` is called the
channel field equals the channel stored on the prototype by registration,
whatever own `channel` value the instance carried before. -/
theorem send_stamps_channel_before_encode {ι γ : Type} (enc : Sendable → Option ι)
    (st : ManagerState ι γ) (m : Sendable)
    (h1 : st.isReady = true)
    (h2 : (lookupEntry (channelRead m) st.registry.entries).isSome = true) :
    (send enc st m).1.encodeCalls = st.encodeCalls ++ [stampChannel m] ∧
    channelRead (stampChannel m) = m.proto.channel := by
  constructor
  · rcases henc : enc (stampChannel m) with _ | io <;> simp [send, h1, h2, henc]
  · cases hc : m.proto.channel <;> simp [channelRead, stampChannel, hc]

/-- Witness for claim C6: `msgMistagged` carries a stale own channel
`"ping"` while its prototype is registered under `"pong"`; sending it on
the ready manager `stC6` records one encode call whose argument reads
channel `"pong"`. -/
theorem send_stamps_channel_before_encode_witness :
    (send encNat stC6 msgMistagged).1.encodeCalls = [stampChannel msgMistagged] ∧
    channelRead (stampChannel msgMistagged) = some "pong" := by
  have h := send_stamps_channel_before_encode encNat stC6 msgMistagged rfl rfl
  exact ⟨h.1, h.2⟩

/-! Lemmas about queueing and the `ready` drain. -/

theorem length_filterMap_of_isSome {α β : Type} (f : α → Option β) (l : List α)
    (h : ∀ a ∈ l, (f a).isSome = true) : (l.filterMap f).length = l.length := by
  induction l with
  | nil => rfl
  | cons a rest ih =>
    rcases hfa : f a with _ | b
    · have := h a (List.mem_cons_self a rest)
      rw [hfa] at this
      simp at this
    · have hrec := ih (fun x hx => h x (List.mem_cons_of_mem a hx))
      simp [List.filterMap_cons, hfa, hrec]

theorem sendAll_notReady {ι γ : Type} (enc : Sendable → Option ι) (ms : List Sendable) :
    ∀ st : ManagerState ι γ, st.isReady = false →
    (∀ m ∈ ms, (lookupEntry (channelRead m) st.registry.entries).isSome = true) →
    sendAll enc ms st = ({ st with queue := st.queue ++ ms }, none) := by
  induction ms with
  | nil =>
    intro st h0 hreg
    simp [sendAll]
  | cons m ms ih =>
    intro st h0 hreg
    have hm := hreg m (List.mem_cons_self m ms)
    have hs : send enc st m = ({ st with queue := st.queue ++ [m] }, none) := by
      simp [send, hm, h0]
    have hrec := ih ({ st with queue := st.queue ++ [m] }) h0
      (fun x hx => hreg x (List.mem_cons_of_mem m hx))
    simp only [sendAll, hs, hrec]
    simp

theorem drainQueue_append_ok {ι γ : Type} (enc : Sendable → Option ι) (q1 : List Sendable) :
    ∀ (rest : List Sendable) (st : ManagerState ι γ), st.isReady = true →
    (∀ m ∈ q1, (lookupEntry (channelRead m) st.registry.entries).isSome = true) →
    (∀ m ∈ q1, (encodedForm enc m).isSome = true) →
    drainQueue enc (q1 ++ rest) st =
      drainQueue enc rest ({ st with
        transmitted := st.transmitted ++ q1.filterMap (encodedForm enc),
        encodeCalls := st.encodeCalls ++ q1.map stampChannel }) := by
  induction q1 with
  | nil =>
    intro rest st h0 hreg henc
    simp
  | cons m q1 ih =>
    intro rest st h0 hreg henc
    have hm := hreg m (List.mem_cons_self m q1)
    have hio := henc m (List.mem_cons_self m q1)
    rcases hfa : enc (stampChannel m) with _ | io
    · rw [encodedForm, hfa] at hio
      simp at hio
    · have hs : send enc st m = ({ st with
          transmitted := st.transmitted ++ [io],
          encodeCalls := st.encodeCalls ++ [stampChannel m] }, none) := by
        simp [send, hm, h0, hfa]
      have hrec := ih rest ({ st with
          transmitted := st.transmitted ++ [io],
          encodeCalls := st.encodeCalls ++ [stampChannel m] }) h0
        (fun x hx => hreg x (List.mem_cons_of_mem m hx))
        (fun x hx => henc x (List.mem_cons_of_mem m hx))
      have hform : encodedForm enc m = some io := by
        rw [encodedForm, hfa]
      simp only [List.cons_append, drainQueue, hs, List.append_eq]
      rw [hrec]
      simp [hform, List.filterMap_cons, List.append_assoc]

theorem drainQueue_ok {ι γ : Type} (enc : Sendable → Option ι) (q1 : List Sendable)
    (st : ManagerState ι γ) (h0 : st.isReady = true)
    (hreg : ∀ m ∈ q1, (lookupEntry (channelRead m) st.registry.entries).isSome = true)
    (henc : ∀ m ∈ q1, (encodedForm enc m).isSome = true) :
    drainQueue enc q1 st = ({ st with
      transmitted := st.transmitted ++ q1.filterMap (encodedForm enc),
      encodeCalls := st.encodeCalls ++ q1.map stampChannel }, none) := by
  have := drainQueue_append_ok enc q1 [] st h0 hreg henc
  simpa [drainQueue] using this

/-- Claim C2: sends of registered messages issued while NotReady cause no
transmit call and are queued in order; the following `ready()` call makes
`transmit` observe exactly the encoded form of each queued message, in
enqueue order, and empties the queue. -/
theorem send_queue_then_ready_transmits_in_order {ι γ : Type} (enc : Sendable → Option ι)
    (st : ManagerState ι γ) (ms : List Sendable)
    (h0 : st.isReady = false) (hq : st.queue = [])
    (hreg : ∀ m ∈ ms, (lookupEntry (channelRead m) st.registry.entries).isSome = true)
    (henc : ∀ m ∈ ms, (encodedForm enc m).isSome = true) :
    sendAll enc ms st = ({ st with queue := ms }, none) ∧
    ready enc ({ st with queue := ms }) = ({ st with
      isReady := true,
      transmitted := st.transmitted ++ ms.filterMap (encodedForm enc),
      encodeCalls := st.encodeCalls ++ ms.map stampChannel }, none) ∧
    (ms.filterMap (encodedForm enc)).length = ms.length := by
  obtain ⟨reg, ls, aw, q, ir, tr, ec⟩ := st
  obtain rfl : q = [] := hq
  obtain rfl : ir = false := h0
  refine ⟨?_, ?_, length_filterMap_of_isSome (encodedForm enc) ms henc⟩
  · have := sendAll_notReady enc ms ⟨reg, ls, aw, [], false, tr, ec⟩ rfl hreg
    simpa using this
  · have hdrain := drainQueue_ok enc ms
      (⟨reg, ls, aw, ms, true, tr, ec⟩ : ManagerState ι γ) rfl hreg henc
    simp [ready, hdrain]

/-- Witness for claim C2: on the fresh manager `stFresh`, sending
`pingInst` then `pongInst` while NotReady transmits nothing and queues
both; `ready()` then transmits their encoded forms 1 and 2 in that order
and clears the queue. -/
theorem send_queue_then_ready_transmits_in_order_witness :
    sendAll encNat [pingInst, pongInst] stFresh =
      ({ stFresh with queue := [pingInst, pongInst] }, none) ∧
    ready encNat ({ stFresh with queue := [pingInst, pongInst] }) =
      ({ stFresh with
        isReady := true,
        transmitted := [1, 2],
        encodeCalls := [stampChannel pingInst, stampChannel pongInst] }, none) := by
  have h := send_queue_then_ready_transmits_in_order encNat stFresh [pingInst, pongInst]
    rfl rfl
    (by
      intro m hm
      simp at hm
      rcases hm with rfl | rfl <;> rfl)
    (by
      intro m hm
      simp at hm
      rcases hm with rfl | rfl <;> rfl)
  exact ⟨h.1, h.2.1⟩

/-- Claim C7 as amended: a second `ready()` on a manager that is already
Ready is a no-op provided the outbound queue is empty, which is the state
a completed (non-throwing) drain leaves behind: no state change, no
additional transmit call. -/
theorem ready_idempotent_when_queue_empty {ι γ : Type} (enc : Sendable → Option ι)
    (st : ManagerState ι γ) (h1 : st.isReady = true) (h2 : st.queue = []) :
    ready enc st = (st, none) := by
  obtain ⟨reg, ls, aw, q, ir, tr, ec⟩ := st
  obtain rfl : q = [] := h2
  obtain rfl : ir = true := h1
  rfl

/-- Witness for amended claim C7: a second `ready()` on `stEmptyReady`
(Ready, empty queue) changes nothing and throws nothing. -/
theorem ready_idempotent_when_queue_empty_witness :
    ready encNat stEmptyReady = (stEmptyReady, none) :=
  ready_idempotent_when_queue_empty encNat stEmptyReady rfl rfl

/-- Counterexample to claim C7 as stated: after a `ready()` whose drain
aborted because `encode` threw on `badMsg`, the manager `stC7ready` is
already Ready (with `okMsg` transmitted once and the queue never
cleared); calling `ready()` again is not a no-op — it transmits `okMsg` a
second time. -/
theorem ready_again_retransmits_after_failed_drain :
    stC7ready.isReady = true ∧
    stC7ready.queue = [okMsg, badMsg] ∧
    stC7ready.transmitted = [1] ∧
    (ready encPartial stC7ready).1.transmitted = [1, 1] :=
  ⟨rfl, rfl, rfl, rfl⟩

/-- Claim C10: when `encode` throws on a queued message during the drain
started by `ready()`, the error propagates synchronously out of `ready`,
the messages queued before the failing one are the only ones transmitted,
the queue is not cleared, and the manager is left Ready. -/
theorem ready_encode_failure_aborts_drain {ι γ : Type} (enc : Sendable → Option ι)
    (st : ManagerState ι γ) (q1 : List Sendable) (bad : Sendable) (q2 : List Sendable)
    (hq : st.queue = q1 ++ bad :: q2)
    (hreg1 : ∀ m ∈ q1, (lookupEntry (channelRead m) st.registry.entries).isSome = true)
    (henc1 : ∀ m ∈ q1, (encodedForm enc m).isSome = true)
    (hregb : (lookupEntry (channelRead bad) st.registry.entries).isSome = true)
    (hencb : encodedForm enc bad = none) :
    ready enc st = ({ st with
      isReady := true,
      transmitted := st.transmitted ++ q1.filterMap (encodedForm enc),
      encodeCalls := st.encodeCalls ++ q1.map stampChannel ++ [stampChannel bad] },
      some encodeErrMsg) := by
  obtain ⟨reg, ls, aw, q, ir, tr, ec⟩ := st
  obtain rfl : q = q1 ++ bad :: q2 := hq
  rw [encodedForm] at hencb
  have hdrain := drainQueue_append_ok enc q1 (bad :: q2)
    (⟨reg, ls, aw, q1 ++ bad :: q2, true, tr, ec⟩ : ManagerState ι γ) rfl hreg1 henc1
  simp [ready, hdrain, drainQueue, send, hregb, hencb, List.append_assoc]

/-- Witness for claim C10: on `stC7` (queue `[okMsg, badMsg]`, `encPartial`
throws on `badMsg`), `ready()` transmits only the encoding 1 of `okMsg`,
raises the encode error, leaves the queue uncleared, and leaves the
manager Ready. -/
theorem ready_encode_failure_aborts_drain_witness :
    ready encPartial stC7 = ({ stC7 with
      isReady := true,
      transmitted := [1],
      encodeCalls := [stampChannel okMsg, stampChannel badMsg] }, some encodeErrMsg) := by
  have h := ready_encode_failure_aborts_drain encPartial stC7 [okMsg] badMsg [] rfl
    (by
      intro m hm
      simp at hm
      subst hm
      rfl)
    (by
      intro m hm
      simp at hm
      subst hm
      rfl)
    rfl rfl
  simpa using h

theorem lookupEntry_setEntry {γ : Type} (k : Option String) (v : RegEntry γ)
    (l : List (Option String × RegEntry γ)) :
    lookupEntry k (setEntry k v l) = some v := by
  induction l with
  | nil => simp [setEntry, lookupEntry]
  | cons p rest ih =>
    obtain ⟨k2, v2⟩ := p
    by_cases h : k2 = k
    · simp [setEntry, lookupEntry, h]
    · simp [setEntry, lookupEntry, h, ih]

/-- Claim C8: decorating a class with `MakeSendable` under channel `c`
makes every freshly constructed instance read `c` from its `channel`
field, and inserts the entry (type descriptor, validator, custom data)
for that class under key `c` in the registry. -/
theorem makeSendable_associates_channel_and_registers {γ : Type} (r : Registry γ)
    (ch : String) (strat : Sendable → Bool) (custom : γ) (cls : ClassDesc) (payload : Int) :
    channelRead (mkInstance (MakeSendable r ch strat custom cls).1 payload) = some ch ∧
    lookupEntry (some ch) ((MakeSendable r ch strat custom cls).2).entries =
      some ⟨(MakeSendable r ch strat custom cls).1, strat, custom⟩ := by
  constructor
  · rfl
  · exact lookupEntry_setEntry (some ch) ⟨{ cls with channel := some ch }, strat, custom⟩ r.entries

end Triangulum
